import Mathlib

/-!
Shallow embedding of the ink storage collections under verification:
the slot-recycling `Stash` (src/core/src/storage2/collections/stash/mod.rs)
and the capacity-bounded `SmallVec`
(src/core/src/storage/collections2/smallvec/mod.rs).

Conventions of the embedding:
* Rust `u32` indices and counters are modelled as `Nat`; all arithmetic in
  the modelled code stays far below `2^32` on every input considered, except
  where underflow is the point (see `SmallVec.last`), where subtraction is
  modelled as checked (a panic on underflow), matching Rust's
  overflow-checked semantics.
* A Rust panic (`expect`, `assert!`, `unreachable!`, checked-arithmetic
  abort) is modelled by returning `none` in an outer `Option` layer; `some`
  carries the regular result.  Rust's own `Option` return values live in an
  inner `Option`.
* The lazy storage chunk/array collaborators (`LazyChunk`, `LazyArray`,
  `Pack`, `Lazy`) are not part of the provided sources; they are modelled
  from the spec (see the individual doc comments).  `Pack` is a transparent
  wrapper and is elided.
-/

/-- Pointwise update of a partial map, used to model writes of the lazy
storage chunk/array cells. -/
def setFn (m : Nat → Option α) (i : Nat) (v : Option α) : Nat → Option α :=
  fun j => if j = i then v else m j

theorem setFn_apply (m : Nat → Option α) (i j : Nat) (v : Option α) :
    setFn m i v j = if j = i then v else m j := rfl

/-- A vacant entry with previous and next vacant indices
(`VacantEntry` in stash/mod.rs, fields in source order). -/
structure VacantEntry where
  next : Nat
  prev : Nat
deriving DecidableEq

/-- An entry within the stash (`Entry<T>` in stash/mod.rs). -/
inductive Entry (T : Type) where
  | Vacant : VacantEntry → Entry T
  | Occupied : T → Entry T
deriving DecidableEq

/-- Returns `true` if the entry is occupied (`Entry::is_occupied`). -/
def Entry.is_occupied : Entry T → Bool
  | Entry.Occupied _ => true
  | Entry.Vacant _ => false

/-- Returns `true` if the entry is vacant (`Entry::is_vacant`). -/
def Entry.is_vacant (e : Entry T) : Bool :=
  !e.is_occupied

/-- Returns the vacant entry if the entry is vacant (`Entry::try_to_vacant`). -/
def Entry.try_to_vacant : Entry T → Option VacantEntry
  | Entry.Occupied _ => none
  | Entry.Vacant ve => some ve

/-- The stash header (`Header` in stash/mod.rs, fields in source order). -/
structure Header where
  last_vacant : Nat
  len : Nat
  len_entries : Nat
deriving DecidableEq

/-- The storage stash (`Stash<T>` in stash/mod.rs).  The `entries` field
models the `LazyChunk<Pack<Entry<T>>>` as a partial map from indices to
entries.

Modelled from the spec: `LazyChunk` (spec section 4.4, Indexed Lazy
Collection, unbounded variant) is not among the provided sources; it is
modelled as a partial map with `get index` = lookup, `put index value` =
unconditional write (writing `None` clears the cell), `put_get index value`
= write returning the previous value, and `take index` = read-then-clear. -/
structure Stash (T : Type) where
  header : Header
  entries : Nat → Option (Entry T)

/-- Creates a new empty stash (`Stash::new`). -/
def Stash.new : Stash T :=
  { header := { last_vacant := 0, len := 0, len_entries := 0 },
    entries := fun _ => none }

/-- Returns the number of elements stored in the stash (`Stash::len`). -/
def Stash.len (s : Stash T) : Nat :=
  s.header.len

/-- Returns the number of entries currently managed by the stash
(`Stash::len_entries`). -/
def Stash.len_entries (s : Stash T) : Nat :=
  s.header.len_entries

/-- Returns `true` if the storage stash has vacant entries
(`Stash::has_vacant_entries`). -/
def Stash.has_vacant_entries (s : Stash T) : Bool :=
  s.header.last_vacant != s.header.len_entries

/-- Returns the index of the last vacant entry if any
(`Stash::last_vacant_index`). -/
def Stash.last_vacant_index (s : Stash T) : Option Nat :=
  if s.has_vacant_entries then some s.header.last_vacant else none

/-- Returns the element at the given index if it is occupied (`Stash::get`). -/
def Stash.get (s : Stash T) (a : Nat) : Option T :=
  if a ≥ s.len_entries then
    none
  else
    match s.entries a with
    | some (Entry.Occupied v) => some v
    | _ => none

/-- Models the chain
`entries.get_mut(i).map(Pack::as_inner_mut).map(Entry::try_to_vacant_mut).expect(..).map(f)`
used by `remove_vacant_entry` and `take`: a panic (`none`) if the entry is
absent, a silent no-op if the entry is occupied, and an update of the
vacant links otherwise. -/
def updateVacantAt (m : Nat → Option (Entry T)) (i : Nat)
    (f : VacantEntry → VacantEntry) : Option (Nat → Option (Entry T)) :=
  match m i with
  | none => none
  | some (Entry.Occupied _) => some m
  | some (Entry.Vacant ve) => some (setFn m i (some (Entry.Vacant (f ve))))

/-- Rebinds the `prev` and `next` bindings of the neighbours of the removed
vacant entry (`Stash::remove_vacant_entry`).  Note that the early-return
branch (the removed entry was the sole vacancy) leaves `header.last_vacant`
untouched, exactly as the source does. -/
def Stash.remove_vacant_entry (s : Stash T) (removed_index : Nat)
    (ve : VacantEntry) : Option (Stash T) :=
  let prev_vacant := ve.prev
  let next_vacant := ve.next
  if prev_vacant = removed_index ∧ next_vacant = removed_index then
    some s
  else if prev_vacant = next_vacant then
    (updateVacantAt s.entries prev_vacant
        (fun _ => { next := prev_vacant, prev := prev_vacant })).map
      fun m =>
        { s with
          entries := m,
          header := { s.header with last_vacant := min prev_vacant next_vacant } }
  else
    ((updateVacantAt s.entries prev_vacant
        (fun e => { e with next := next_vacant })).bind
      fun m => updateVacantAt m next_vacant
        (fun e => { e with prev := prev_vacant })).map
      fun m =>
        { s with
          entries := m,
          header := { s.header with last_vacant := min prev_vacant next_vacant } }

/-- Puts the element into the stash at the next vacant position
(`Stash::put`).  Faithful to the source, including the fresh-slot branch
that writes the entry at the old `len_entries` but evaluates the returned
index as `self.header.len_entries` only after incrementing it. -/
def Stash.put (s : Stash T) (new_value : T) : Option (Nat × Stash T) :=
  match s.last_vacant_index with
  | some index =>
    -- `put_get(index, Some(Occupied(new_value)))`; the old entry must exist.
    match s.entries index with
    | none => none
    | some old_entry =>
      let s1 : Stash T :=
        { s with entries := setFn s.entries index (some (Entry.Occupied new_value)) }
      match old_entry with
      | Entry.Occupied _ => none
      | Entry.Vacant ve =>
        (s1.remove_vacant_entry index ve).map fun s2 =>
          (index, { s2 with header := { s2.header with len := s2.header.len + 1 } })
  | none =>
    let s1 : Stash T :=
      { s with
        entries := setFn s.entries s.header.len_entries (some (Entry.Occupied new_value)),
        header :=
          { s.header with
            last_vacant := s.header.last_vacant + 1,
            len_entries := s.header.len_entries + 1 } }
    some (s1.header.len_entries,
      { s1 with header := { s1.header with len := s1.header.len + 1 } })

/-- Takes the element stored at the given index if any (`Stash::take`).
Faithful to the source: the bound check compares against `header.len` (the
occupied count), the new vacant entry takes over the links of the current
free-list head, and `header.last_vacant` is set to
`min(at, min(prev, next))`. -/
def Stash.take (s : Stash T) (a : Nat) : Option (Option T × Stash T) :=
  if a ≥ s.len then
    some (none, s)
  else
    let pn : Option (Nat × Nat) :=
      match s.last_vacant_index with
      | some index =>
        match s.entries index with
        | none => none
        | some e =>
          match e.try_to_vacant with
          | none => none
          | some ve => some (ve.prev, ve.next)
      | none => some (a, a)
    match pn with
    | none => none
    | some (prev, next) =>
      match s.entries a with
      | none => none
      | some (Entry.Vacant _) => some (none, s)
      | some (Entry.Occupied value) =>
        let m1 := setFn s.entries a (some (Entry.Vacant { next := next, prev := prev }))
        let m2 : Option (Nat → Option (Entry T)) :=
          if prev = next then
            updateVacantAt m1 next (fun _ => { next := a, prev := a })
          else
            (updateVacantAt m1 prev (fun e => { e with next := a })).bind
              fun m => updateVacantAt m next (fun e => { e with prev := a })
        m2.map fun m =>
          (some value,
            { s with
              entries := m,
              header :=
                { s.header with
                  last_vacant := min a (min prev next),
                  len := s.header.len - 1 } })

/-- One pass of the defragmentation loop body over a precomputed list of
scanned indices (`Stash::defrag`).  The callback only observes values, so
it is elided from the pure model.  Faithful to the source, including the
call `remove_vacant_entry(index, vacant_entry)` in the relocation branch,
which passes the scanned index rather than the destination index. -/
def Stash.defragLoop : List Nat → Stash T → Option (Stash T)
  | [], s => some s
  | index :: rest, s =>
    if ¬ s.has_vacant_entries then
      some s
    else
      match s.entries index with
      | none => none
      | some entry =>
        let s1 : Stash T := { s with entries := setFn s.entries index none }
        match entry with
        | Entry.Vacant ve =>
          (s1.remove_vacant_entry index ve).bind fun s2 =>
            Stash.defragLoop rest
              { s2 with header := { s2.header with len_entries := s2.header.len_entries - 1 } }
        | Entry.Occupied value =>
          match s1.last_vacant_index with
          | none => none
          | some vacant_index =>
            match s1.entries vacant_index with
            | none => none
            | some old_entry =>
              let s2 : Stash T :=
                { s1 with
                  entries := setFn s1.entries vacant_index (some (Entry.Occupied value)) }
              match old_entry with
              | Entry.Occupied _ => none
              | Entry.Vacant ve =>
                (s2.remove_vacant_entry index ve).bind fun s3 =>
                  Stash.defragLoop rest
                    { s3 with
                      header := { s3.header with len_entries := s3.header.len_entries - 1 } }

/-- Defragments the underlying storage (`Stash::defrag`): scans
`(0..len_entries).rev().take(max_iterations.unwrap_or(len_entries))`. -/
def Stash.defrag (s : Stash T) (max_iterations : Option Nat) : Option (Stash T) :=
  Stash.defragLoop
    ((List.range s.header.len_entries).reverse.take
      (max_iterations.getD s.header.len_entries)) s

/-- Number of `Vacant` entries among the indices managed by the stash. -/
def Stash.countVacant (s : Stash T) : Nat :=
  ((List.range s.header.len_entries).filter
    (fun i =>
      match s.entries i with
      | some (Entry.Vacant _) => true
      | _ => false)).length

/-- Follows the `next` pointers of vacant entries for the given number of
steps, starting at the given index; used to express the free-list
traversal of the well-formedness claim. -/
def Stash.followNext (s : Stash T) : Nat → Nat → Nat
  | 0, i => i
  | Nat.succ k, i =>
    match s.entries i with
    | some (Entry.Vacant ve) => s.followNext k ve.next
    | _ => i

/-- The capacity-bounded growable array (`SmallVec<T, N>` in
smallvec/mod.rs): a cached length plus the entries of the backing
`LazyArray`, modelled as a partial map.  The type-level capacity `N` is
passed to each operation as an explicit `Nat`. -/
structure SmallVec (T : Type) where
  len : Nat
  elems : Nat → Option T

/-- Creates a new empty vector (`SmallVec::new`). -/
def SmallVec.new : SmallVec T :=
  { len := 0, elems := fun _ => none }

/-- Modelled from the spec: `LazyArray::get` (spec section 4.4, bounded
Indexed Lazy Collection, not among the provided sources) — lookup that is
absent beyond the capacity. -/
def laGet (N : Nat) (m : Nat → Option T) (i : Nat) : Option T :=
  if i < N then m i else none

/-- Modelled from the spec: `LazyArray::put` (spec section 4.4) — write
(`none` clears the cell); a capacity violation is a fatal contract
violation, modelled as a panic. -/
def laPut (N : Nat) (m : Nat → Option T) (i : Nat) (v : Option T) :
    Option (Nat → Option T) :=
  if i < N then some (setFn m i v) else none

/-- Modelled from the spec: `LazyArray::take` (spec section 4.4) —
read-then-clear; a capacity violation is fatal. -/
def laTake (N : Nat) (m : Nat → Option T) (i : Nat) :
    Option (Option T × (Nat → Option T)) :=
  if i < N then some (m i, setFn m i none) else none

/-- Modelled from the spec: `LazyArray::swap` (spec sections 4.4 and 4.6)
— unconditional cell swap, fatal if either index is out of capacity. -/
def laSwap (N : Nat) (m : Nat → Option T) (a b : Nat) :
    Option (Nat → Option T) :=
  if a < N ∧ b < N then
    some (setFn (setFn m a (m b)) b (m a))
  else none

/-- Returns the index if it is within bounds (`SmallVec::within_bounds`). -/
def SmallVec.within_bounds (s : SmallVec T) (i : Nat) : Option Nat :=
  if i < s.len then some i else none

/-- Returns the indexed element if `index` is in bounds (`SmallVec::get`). -/
def SmallVec.get (N : Nat) (s : SmallVec T) (i : Nat) : Option T :=
  (s.within_bounds i).bind fun j => laGet N s.elems j

/-- Returns the first element if any (`SmallVec::first`). -/
def SmallVec.first (N : Nat) (s : SmallVec T) : Option T :=
  s.get N 0

/-- Returns the last element (`SmallVec::last`).  The source computes
`self.len() - 1` with no emptiness guard; on an empty vector the `u32`
subtraction underflows, which is a panic under Rust's checked-arithmetic
semantics — modelled by the outer `none`. -/
def SmallVec.last (N : Nat) (s : SmallVec T) : Option (Option T) :=
  match s.len with
  | 0 => none
  | Nat.succ k => some (s.get N k)

/-- Returns the indexed element for mutation (`SmallVec::get_mut`); in the
pure model this coincides with `get`. -/
def SmallVec.get_mut (N : Nat) (s : SmallVec T) (i : Nat) : Option T :=
  (s.within_bounds i).bind fun j => laGet N s.elems j

/-- Returns the last element for mutation (`SmallVec::last_mut`); like
`last`, the source computes `self.len() - 1` with no emptiness guard. -/
def SmallVec.last_mut (N : Nat) (s : SmallVec T) : Option (Option T) :=
  match s.len with
  | 0 => none
  | Nat.succ k => some (s.get_mut N k)

/-- Appends an element to the back of the vector (`SmallVec::push`).  The
source first asserts `len < capacity` (a panic otherwise, before any
mutation), then writes at the old length and increments the length. -/
def SmallVec.push (N : Nat) (s : SmallVec T) (v : T) : Option (SmallVec T) :=
  if s.len < N then
    (laPut N s.elems s.len (some v)).map fun m =>
      { len := s.len + 1, elems := m }
  else none

/-- Pops the last element from the vector (`SmallVec::pop`): `None` and no
mutation on an empty vector, otherwise decrement the length and
read-then-clear the former last cell. -/
def SmallVec.pop (N : Nat) (s : SmallVec T) : Option (Option T × SmallVec T) :=
  if s.len = 0 then
    some (none, s)
  else
    (laTake N s.elems (s.len - 1)).map fun p =>
      (p.1, { len := s.len - 1, elems := p.2 })

/-- Pops the last element and drops it without decoding
(`SmallVec::pop_drop`): the cell is cleared via `put(last_index, None)`. -/
def SmallVec.pop_drop (N : Nat) (s : SmallVec T) : Option (SmallVec T) :=
  if s.len = 0 then
    some s
  else
    (laPut N s.elems (s.len - 1) none).map fun m =>
      { len := s.len - 1, elems := m }

/-- Swaps the elements at the given indices (`SmallVec::swap`), forwarding
to the backing array's swap. -/
def SmallVec.swap (N : Nat) (s : SmallVec T) (a b : Nat) : Option (SmallVec T) :=
  (laSwap N s.elems a b).map fun m => { s with elems := m }

/-- Removes the indexed element, moving the last element into its slot
(`SmallVec::swap_remove`): swap with the last occupied slot, then pop. -/
def SmallVec.swap_remove (N : Nat) (s : SmallVec T) (n : Nat) :
    Option (Option T × SmallVec T) :=
  if s.len = 0 then
    some (none, s)
  else
    (laSwap N s.elems n (s.len - 1)).bind fun m =>
      SmallVec.pop N { s with elems := m }

/-- Removes the indexed element without decoding it
(`SmallVec::swap_remove_drop`): clear slot `n`, take the last cell, write
the taken value into slot `n`, decrement the length. -/
def SmallVec.swap_remove_drop (N : Nat) (s : SmallVec T) (n : Nat) :
    Option (Option Unit × SmallVec T) :=
  if s.len = 0 then
    some (none, s)
  else
    (laPut N s.elems n none).bind fun m1 =>
      (laTake N m1 (s.len - 1)).bind fun p =>
        (laPut N p.2 n p.1).map fun m3 =>
          (some Unit.unit, { len := s.len - 1, elems := m3 })

/-- States of a bounded vector reachable from `SmallVec::new` by the
mutating operations of the source (successful outcomes only). -/
inductive SvReachable (T : Type) (N : Nat) : SmallVec T → Prop where
  | new : SvReachable T N SmallVec.new
  | push {s s' : SmallVec T} {v : T} :
      SvReachable T N s → SmallVec.push N s v = some s' → SvReachable T N s'
  | pop {s s' : SmallVec T} {v : Option T} :
      SvReachable T N s → SmallVec.pop N s = some (v, s') → SvReachable T N s'
  | pop_drop {s s' : SmallVec T} :
      SvReachable T N s → SmallVec.pop_drop N s = some s' → SvReachable T N s'
  | swap {s s' : SmallVec T} {a b : Nat} :
      SvReachable T N s → SmallVec.swap N s a b = some s' → SvReachable T N s'
  | swap_remove {s s' : SmallVec T} {n : Nat} {v : Option T} :
      SvReachable T N s → SmallVec.swap_remove N s n = some (v, s') →
      SvReachable T N s'
  | swap_remove_drop {s s' : SmallVec T} {n : Nat} {v : Option Unit} :
      SvReachable T N s → SmallVec.swap_remove_drop N s n = some (v, s') →
      SvReachable T N s'

/-! Concrete execution scenarios on `Stash Nat`, used to evaluate the code
at the inputs that decide the stash claims. -/

/-- `Stash::new()` followed by `put(10)`. -/
def stashPut10 : Option (Nat × Stash Nat) :=
  Stash.put (Stash.new : Stash Nat) 10

/-- `put(10); put(20)` from a fresh stash. -/
def stashPut20 : Option (Nat × Stash Nat) :=
  stashPut10.bind fun p => Stash.put p.2 20

/-- `put(10); put(20); put(30)` from a fresh stash. -/
def stashPut30 : Option (Nat × Stash Nat) :=
  stashPut20.bind fun p => Stash.put p.2 30

/-- The scenario of the spec: the three puts above, then `take(1)`. -/
def stashTake1 : Option (Option Nat × Stash Nat) :=
  stashPut30.bind fun p => Stash.take p.2 1

/-- The scenario of the spec, continued with `put(40)`. -/
def stashPut40 : Option (Nat × Stash Nat) :=
  stashTake1.bind fun p => Stash.put p.2 40

/-- Three puts, then `take(0)`. -/
def stashTake0 : Option (Option Nat × Stash Nat) :=
  stashPut30.bind fun p => Stash.take p.2 0

/-- Three puts, then `take(0)`, then `take(1)`. -/
def stashTake0Take1 : Option (Option Nat × Stash Nat) :=
  stashTake0.bind fun p => Stash.take p.2 1

/-- Five puts 10,20,30,40,50 from a fresh stash. -/
def stashPut5 : Option (Nat × Stash Nat) :=
  stashPut30.bind fun p =>
    (Stash.put p.2 40).bind fun q => Stash.put q.2 50

/-- Five puts, then `take(0); take(1); take(2)`. -/
def stashTake012 : Option (Option Nat × Stash Nat) :=
  stashPut5.bind fun p =>
    (Stash.take p.2 0).bind fun q =>
      (Stash.take q.2 1).bind fun r => Stash.take r.2 2

/-- C1: round-trip `take(put(v)) == Some(v)` fails on the code: from
`Stash::new()`, `put(10)` writes `Occupied(10)` at index 0 (where `take(0)`
does find the value) yet returns index 1, and `take(1)` returns `None`.
This theorem evaluates the embedded code at that failing input. -/
theorem stash_put_roundtrip_broken :
    stashPut10.map Prod.fst = some 1 ∧
    stashPut10.bind (fun p => p.2.entries 0) = some (Entry.Occupied 10) ∧
    stashPut10.bind (fun p => p.2.entries 1) = none ∧
    stashPut10.bind (fun p => (Stash.take p.2 p.1).map Prod.fst) = some none ∧
    stashPut10.bind (fun p => (Stash.take p.2 0).map Prod.fst) =
      some (some 10) := by
  decide

/-- C2: evaluation of the spec's concrete scenario on the embedded code:
the three puts return indices 1, 2, 3 (not 0, 1, 2 as claimed, because the
fresh-slot branch of `put` returns the post-increment `len_entries`);
`take(1)` then returns `Some 20` leaving `len = 2` and `last_vacant = 1`,
`put(40)` reuses index 1 leaving `len = 3`, and `get(1)` yields 40. -/
theorem stash_scenario_eval :
    stashPut10.map Prod.fst = some 1 ∧
    stashPut20.map Prod.fst = some 2 ∧
    stashPut30.map Prod.fst = some 3 ∧
    stashTake1.map Prod.fst = some (some 20) ∧
    stashTake1.map (fun p => p.2.len) = some 2 ∧
    stashTake1.map (fun p => p.2.header.last_vacant) = some 1 ∧
    stashPut40.map Prod.fst = some 1 ∧
    stashPut40.map (fun p => p.2.len) = some 3 ∧
    stashPut40.map (fun p => Stash.get p.2 1) = some (some 40) := by
  decide

/-- C3: the header invariant fails on a reachable state: after
`put(10); put(20); put(30); take(1); put(40)` the stash has no `Vacant`
entry at all, yet `last_vacant = 1` while `len_entries = 3` (the sentinel
is not restored because `remove_vacant_entry` returns early without
touching `last_vacant` when the reused slot was the sole vacancy), and the
very next `put(50)` panics at the
`unreachable!("next_vacant must point to a vacant entry")` assertion. -/
theorem stash_header_invariant_broken :
    stashPut40.map (fun p => p.2.countVacant) = some 0 ∧
    stashPut40.map (fun p => p.2.header.last_vacant) = some 1 ∧
    stashPut40.map (fun p => p.2.header.len_entries) = some 3 ∧
    (stashPut40.bind fun p => Stash.put p.2 50).isNone = true := by
  decide

/-- C4: free-list well-formedness fails on a reachable state: after five
puts and `take(0); take(1); take(2)` there are `len_entries - len = 3`
vacant entries, but following `next` pointers from `last_vacant = 1`
returns to 1 after 2 steps (1 → 2 → 1) and lands on 2 ≠ 1 after the
required 3 steps: `take` splices the new vacancy into the place of the old
free-list head instead of linking it in, leaving entry 0 vacant but
orphaned from the circular list. -/
theorem stash_freelist_broken :
    stashTake012.map (fun p => p.2.header.len_entries - p.2.len) = some 3 ∧
    stashTake012.map (fun p => p.2.countVacant) = some 3 ∧
    stashTake012.map (fun p => p.2.header.last_vacant) = some 1 ∧
    stashTake012.map (fun p => p.2.followNext 2 1) = some 1 ∧
    stashTake012.map (fun p => p.2.followNext 3 1) = some 2 ∧
    stashTake012.bind
      (fun p => p.2.entries 0) = some (Entry.Vacant { next := 1, prev := 1 }) := by
  decide

/-- C5: the post-state of `take` diverges from the claim at concrete
reachable inputs: after `put(10); put(20); put(30); take(0)`, the call
`take(1)` extracts `Some 20` but leaves `last_vacant = 0`, not the taken
index 1 (the source assigns `min(at, min(prev, next))`); moreover `take(2)`
on the intermediate state returns `None` without extraction even though
entry 2 is `Occupied(30)`, because the source bounds-checks `at` against
`header.len` (the occupied count, 2) instead of `len_entries`. -/
theorem stash_take_postcondition_broken :
    stashTake0Take1.map Prod.fst = some (some 20) ∧
    stashTake0Take1.map (fun p => p.2.header.last_vacant) = some 0 ∧
    stashTake0.bind (fun p => p.2.entries 2) = some (Entry.Occupied 30) ∧
    stashTake0.map (fun p => p.2.len) = some 2 ∧
    (stashTake0.bind fun p => (Stash.take p.2 2).map Prod.fst) = some none := by
  decide

/-- C6: `defrag` destroys a reachable stash instead of compacting it: on
the stash reached by `put(10); put(20); put(30); take(0)`, the unbounded
`defrag(None, _)` panics — its first relocation passes the scanned index
instead of the destination index to `remove_vacant_entry`, so
`last_vacant` keeps pointing at the now-occupied destination slot and the
second relocation's `put_get` hits an `Occupied` entry, firing
`unreachable!("next_vacant must point to a vacant entry")`. -/
theorem stash_defrag_panics :
    (stashTake0.bind fun p => Stash.defrag p.2 none).isNone = true ∧
    stashTake0.map (fun p => p.2.len) = some 2 ∧
    stashTake0.map (fun p => p.2.countVacant) = some 1 := by
  decide

/-- A successful `push` requires spare capacity and increments the length. -/
theorem push_len_eq {T : Type} {N : Nat} {s s' : SmallVec T} {v : T}
    (h : SmallVec.push N s v = some s') : s'.len = s.len + 1 ∧ s.len < N := by
  unfold SmallVec.push laPut at h
  by_cases hlt : s.len < N
  · rw [if_pos hlt, if_pos hlt] at h
    simp only [Option.map_some', Option.some_inj] at h
    exact ⟨by rw [← h], hlt⟩
  · rw [if_neg hlt] at h
    exact absurd h (by simp)

/-- A successful `pop` never increases the length. -/
theorem pop_len_le {T : Type} {N : Nat} {s s' : SmallVec T} {v : Option T}
    (h : SmallVec.pop N s = some (v, s')) : s'.len ≤ s.len := by
  unfold SmallVec.pop laTake at h
  by_cases h0 : s.len = 0
  · rw [if_pos h0] at h
    simp only [Option.some_inj, Prod.mk.injEq] at h
    rw [← h.2]
  · rw [if_neg h0] at h
    by_cases hk : s.len - 1 < N
    · rw [if_pos hk] at h
      simp only [Option.map_some', Option.some_inj, Prod.mk.injEq] at h
      rw [← h.2]
      exact Nat.sub_le s.len 1
    · rw [if_neg hk] at h
      exact absurd h (by simp)

/-- A successful `pop_drop` never increases the length. -/
theorem pop_drop_len_le {T : Type} {N : Nat} {s s' : SmallVec T}
    (h : SmallVec.pop_drop N s = some s') : s'.len ≤ s.len := by
  unfold SmallVec.pop_drop laPut at h
  by_cases h0 : s.len = 0
  · rw [if_pos h0] at h
    simp only [Option.some_inj] at h
    rw [← h]
  · rw [if_neg h0] at h
    by_cases hk : s.len - 1 < N
    · rw [if_pos hk] at h
      simp only [Option.map_some', Option.some_inj] at h
      rw [← h]
      exact Nat.sub_le s.len 1
    · rw [if_neg hk] at h
      exact absurd h (by simp)

/-- A successful `swap` keeps the length. -/
theorem swap_len_eq {T : Type} {N : Nat} {s s' : SmallVec T} {a b : Nat}
    (h : SmallVec.swap N s a b = some s') : s'.len = s.len := by
  unfold SmallVec.swap laSwap at h
  by_cases hab : a < N ∧ b < N
  · rw [if_pos hab] at h
    simp only [Option.map_some', Option.some_inj] at h
    rw [← h]
  · rw [if_neg hab] at h
    exact absurd h (by simp)

/-- A successful `swap_remove` never increases the length. -/
theorem swap_remove_len_le {T : Type} {N : Nat} {s s' : SmallVec T} {n : Nat}
    {v : Option T} (h : SmallVec.swap_remove N s n = some (v, s')) :
    s'.len ≤ s.len := by
  unfold SmallVec.swap_remove laSwap at h
  by_cases h0 : s.len = 0
  · rw [if_pos h0] at h
    simp only [Option.some_inj, Prod.mk.injEq] at h
    rw [← h.2]
  · rw [if_neg h0] at h
    by_cases hab : n < N ∧ s.len - 1 < N
    · rw [if_pos hab] at h
      simp only [Option.some_bind] at h
      have h2 := pop_len_le h
      exact h2
    · rw [if_neg hab] at h
      exact absurd h (by simp)

/-- A successful `swap_remove_drop` never increases the length. -/
theorem swap_remove_drop_len_le {T : Type} {N : Nat} {s s' : SmallVec T}
    {n : Nat} {v : Option Unit}
    (h : SmallVec.swap_remove_drop N s n = some (v, s')) : s'.len ≤ s.len := by
  unfold SmallVec.swap_remove_drop laPut laTake at h
  by_cases h0 : s.len = 0
  · rw [if_pos h0] at h
    simp only [Option.some_inj, Prod.mk.injEq] at h
    rw [← h.2]
  · rw [if_neg h0] at h
    by_cases hn : n < N
    · by_cases hk : s.len - 1 < N
      · simp only [if_pos hn, if_pos hk, Option.some_bind, Option.map_some',
          Option.some_inj, Prod.mk.injEq] at h
        rw [← h.2]
        exact Nat.sub_le s.len 1
      · simp only [if_pos hn, if_neg hk, Option.some_bind, Option.none_bind] at h
        exact absurd h (by simp)
    · simp only [if_neg hn, Option.none_bind] at h
      exact absurd h (by simp)

/-- Every reachable bounded-vector state keeps its length within the
capacity. -/
theorem svReachable_len_le {T : Type} {N : Nat} {s : SmallVec T}
    (h : SvReachable T N s) : s.len ≤ N := by
  induction h with
  | new => exact Nat.zero_le N
  | push _ heq ih =>
    obtain ⟨h1, h2⟩ := push_len_eq heq
    omega
  | pop _ heq ih =>
    have := pop_len_le heq
    omega
  | pop_drop _ heq ih =>
    have := pop_drop_len_le heq
    omega
  | swap _ heq ih =>
    rw [swap_len_eq heq]
    exact ih
  | swap_remove _ heq ih =>
    have := swap_remove_len_le heq
    omega
  | swap_remove_drop _ heq ih =>
    have := swap_remove_drop_len_le heq
    omega

/-- C7: for every state reachable from `SmallVec::new` by the mutating
operations, `len ≤ capacity`; `push` on a full vector (`len = capacity`)
fails fatally (panic, modelled by `none`, with no mutated state
escaping); `pop` on an empty vector returns `None` with the state
unchanged. -/
theorem smallvec_bounded (T : Type) (N : Nat) (s : SmallVec T)
    (h : SvReachable T N s) :
    s.len ≤ N ∧
    (∀ v : T, s.len = N → SmallVec.push N s v = none) ∧
    (s.len = 0 → SmallVec.pop N s = some (none, s)) := by
  refine ⟨svReachable_len_le h, ?_, ?_⟩
  · intro v hfull
    unfold SmallVec.push
    rw [if_neg (by omega)]
  · intro h0
    unfold SmallVec.pop
    rw [if_pos h0]

/-- Witness for the bounded-vector claim: instantiation at the empty
vector of capacity 2, discharging reachability by the `new` constructor. -/
theorem smallvec_bounded_witness :
    (SmallVec.new : SmallVec Nat).len ≤ 2 ∧
    (∀ v : Nat, (SmallVec.new : SmallVec Nat).len = 2 →
      SmallVec.push 2 (SmallVec.new : SmallVec Nat) v = none) ∧
    ((SmallVec.new : SmallVec Nat).len = 0 →
      SmallVec.pop 2 (SmallVec.new : SmallVec Nat) =
        some (none, (SmallVec.new : SmallVec Nat))) :=
  smallvec_bounded Nat 2 SmallVec.new SvReachable.new

/-- A bounded vector of capacity 4 holding `[a, b, c, d]` at indices 0..3. -/
def fourElems (a b c d : T) : SmallVec T :=
  { len := 4,
    elems := fun i =>
      if i = 0 then some a
      else if i = 1 then some b
      else if i = 2 then some c
      else if i = 3 then some d
      else none }

/-- C8: on a bounded array holding `[a, b, c, d]` with `len = 4`,
`swap_remove(1)` returns `Some b` and leaves `[a, d, c]` with `len = 3`:
the former last element `d` is moved into index 1 and the former last slot
is cleared. -/
theorem smallvec_swap_remove_scenario (T : Type) (a b c d : T) :
    ((fourElems a b c d).swap_remove 4 1).map Prod.fst = some (some b) ∧
    ((fourElems a b c d).swap_remove 4 1).map (fun p => p.2.len) = some 3 ∧
    ((fourElems a b c d).swap_remove 4 1).map (fun p => p.2.get 4 0) =
      some (some a) ∧
    ((fourElems a b c d).swap_remove 4 1).map (fun p => p.2.get 4 1) =
      some (some d) ∧
    ((fourElems a b c d).swap_remove 4 1).map (fun p => p.2.get 4 2) =
      some (some c) ∧
    ((fourElems a b c d).swap_remove 4 1).map (fun p => p.2.get 4 3) =
      some none := by
  refine ⟨rfl, rfl, rfl, rfl, rfl, rfl⟩

/-- C10: on an empty bounded vector, `last` and `last_mut` do not return
`None` gracefully: the source computes `self.len() - 1`, whose `u32`
underflow is a panic (the outer `none` of the model), whereas `first`,
`get` and `pop` handle emptiness by returning `None` without mutation. -/
theorem smallvec_last_empty_panics (T : Type) (N : Nat) (s : SmallVec T)
    (i : Nat) (h : s.len = 0) :
    SmallVec.last N s = none ∧
    SmallVec.last_mut N s = none ∧
    SmallVec.first N s = none ∧
    SmallVec.get N s i = none ∧
    SmallVec.pop N s = some (none, s) := by
  refine ⟨?_, ?_, ?_, ?_, ?_⟩
  · unfold SmallVec.last
    rw [h]
  · unfold SmallVec.last_mut
    rw [h]
  · simp [SmallVec.first, SmallVec.get, SmallVec.within_bounds, h]
  · simp [SmallVec.get, SmallVec.within_bounds, h]
  · simp [SmallVec.pop, h]

/-- Witness for the empty-vector claim: instantiation at the empty vector
of capacity 3 with probe index 5. -/
theorem smallvec_last_empty_panics_witness :
    SmallVec.last 3 (SmallVec.new : SmallVec Nat) = none ∧
    SmallVec.last_mut 3 (SmallVec.new : SmallVec Nat) = none ∧
    SmallVec.first 3 (SmallVec.new : SmallVec Nat) = none ∧
    SmallVec.get 3 (SmallVec.new : SmallVec Nat) 5 = none ∧
    SmallVec.pop 3 (SmallVec.new : SmallVec Nat) =
      some (none, (SmallVec.new : SmallVec Nat)) :=
  smallvec_last_empty_panics Nat 3 SmallVec.new 5 rfl

/-- C9: the drop variants are state-equivalent to their decoding
counterparts on every vector state and every index: `pop_drop` leaves
exactly the state `pop` would, and `swap_remove_drop(n)` leaves exactly
the state `swap_remove(n)` would (including agreeing on the panic cases);
they differ only in not decoding and returning the removed value. -/
theorem smallvec_drop_variants_equiv (T : Type) (N : Nat) (s : SmallVec T)
    (n : Nat) :
    SmallVec.pop_drop N s = (SmallVec.pop N s).map Prod.snd ∧
    (SmallVec.swap_remove_drop N s n).map Prod.snd =
      (SmallVec.swap_remove N s n).map Prod.snd := by
  constructor
  · unfold SmallVec.pop_drop SmallVec.pop laPut laTake
    by_cases h0 : s.len = 0
    · rw [if_pos h0, if_pos h0]
      rfl
    · rw [if_neg h0, if_neg h0]
      by_cases hk : s.len - 1 < N
      · rw [if_pos hk, if_pos hk]
        rfl
      · rw [if_neg hk, if_neg hk]
        rfl
  · unfold SmallVec.swap_remove_drop SmallVec.swap_remove SmallVec.pop laPut
      laTake laSwap
    by_cases h0 : s.len = 0
    · rw [if_pos h0, if_pos h0]
      rfl
    · by_cases hn : n < N
      · by_cases hk : s.len - 1 < N
        · simp only [if_neg h0, if_pos hn, if_pos hk, if_pos (And.intro hn hk),
            Option.some_bind, Option.map_some']
          congr 1
          congr 1
          funext j
          simp only [setFn]
          split_ifs <;> simp_all
        · have hand : ¬ (n < N ∧ s.len - 1 < N) := fun h => hk h.2
          simp only [if_neg h0, if_pos hn, if_neg hk, if_neg hand,
            Option.some_bind, Option.none_bind, Option.map_none']
      · have hand : ¬ (n < N ∧ s.len - 1 < N) := fun h => hn h.1
        simp only [if_neg h0, if_neg hn, if_neg hand,
          Option.none_bind, Option.map_none']
